import Mathlib

/-!
# Verification of the InfiniteContext core

A shallow embedding, in Lean 4, of the core components of the InfiniteContext
repository: `VectorStore` (src/core/VectorStore.ts), `Bucket`
(src/core/Bucket.ts), `MemoryManager.storeChunk` (src/core/MemoryManager.ts),
`TransactionManager.executeTransaction` (src/utils/TransactionManager.ts) and
`MemoryMonitor` (src/core/MemoryMonitor.ts), together with theorems settling
the specification claims about them.

Modelling conventions:
* JavaScript numbers are modelled as `ℚ` (exact arithmetic; the claims under
  consideration do not depend on floating-point rounding).
* `Math.sqrt` is abstracted as an explicit function parameter `msqrt : ℚ → ℚ`
  threaded through the definitions that use it; theorems that depend on actual
  properties of the square root state them as hypotheses on `msqrt`.
* A JavaScript `throw` is modelled with `Except String`; `async` suspension
  points have no concurrent interleavings in scope, so `await` calls to
  external collaborators (provider `getQuota`/`store`, operation
  `execute`/`rollback`) are modelled as pre-determined `Except` outcomes
  carried by the provider/operation value.
* In-place mutation of a caller-supplied object (`Bucket.addChunk` mutating
  its chunk argument) is modelled by returning the post-call value of the
  object; aliasing makes the stored chunk and the caller's chunk one object.
* JavaScript's stable `Array.prototype.sort` is modelled by
  `List.insertionSort`, which is stable; for the total preorders used by the
  code (score comparison, tier-key comparison) the stable sort of a list is
  unique, so this models V8's stable sort exactly.
* A JS `Map` is modelled as an association list in insertion order:
  `Map.set` replaces in place an existing key and appends a new one.
-/

namespace InfiniteContext

/-- Distance metric of a `VectorStore` (`'cosine' | 'euclidean' | 'dot'`). -/
inductive Metric where
  | cosine
  | euclidean
  | dot
deriving DecidableEq

/-- Chunk metadata (src/core/types.ts `Metadata`); the open extension map is
out of scope of the claims and omitted. -/
structure Metadata where
  id : String
  domain : String
  timestamp : String
  source : String
  tags : List String
deriving DecidableEq

/-- One summary entry of a chunk (src/core/types.ts `ChunkSummary`). -/
structure ChunkSummary where
  level : Nat
  content : String
  concepts : List String
deriving DecidableEq

/-- A content chunk (src/core/types.ts `Chunk`). -/
structure Chunk where
  id : String
  content : String
  embedding : List ℚ
  metadata : Metadata
  summaries : List ChunkSummary
deriving DecidableEq

/-- A search result (src/core/types.ts `SearchResult`). -/
structure SearchResult where
  chunk : Chunk
  score : ℚ
deriving DecidableEq

/-- The in-memory vector index (src/core/VectorStore.ts `VectorStore`); the
persistence fields (`dirty`, `path`) are collaborator concerns and omitted. -/
structure VectorStore where
  dimension : Nat
  metric : Metric
  chunks : List Chunk
deriving DecidableEq

/-- Sum of squares of a vector: the `reduce` inside `normalizeVector`. -/
def normSq (v : List ℚ) : ℚ :=
  (v.map fun x => x * x).sum

/-- `VectorStore.normalizeVector`: identity unless the metric is cosine;
otherwise divide by the L2 norm, passing zero vectors through unchanged. -/
def normalizeVector (msqrt : ℚ → ℚ) (metric : Metric) (v : List ℚ) : List ℚ :=
  if metric ≠ .cosine then v
  else
    let norm := msqrt (normSq v)
    if norm = 0 then v else v.map fun x => x / norm

/-- Dot product (`reduce((sum, val, i) => sum + val * b[i], 0)` over `a`). -/
def dotProduct (a b : List ℚ) : ℚ :=
  ((a.zip b).map fun p => p.1 * p.2).sum

/-- `VectorStore.calculateDistance`: throws when the lengths differ, else
scores by metric (cosine: dot of normalized vectors; euclidean: negated
distance; dot: raw dot product). -/
def calculateDistance (msqrt : ℚ → ℚ) (metric : Metric) (a b : List ℚ) :
    Except String ℚ :=
  if a.length ≠ b.length then .error "Vectors must have the same dimension"
  else .ok <| match metric with
    | .cosine =>
        dotProduct (normalizeVector msqrt .cosine a) (normalizeVector msqrt .cosine b)
    | .euclidean =>
        -(msqrt ((a.zip b).map fun p => (p.1 - p.2) * (p.1 - p.2)).sum)
    | .dot => dotProduct a b

/-- The in-place mutation `VectorStore.addChunk` performs on its argument:
under the cosine metric the embedding is replaced by its normalized copy. -/
def VectorStore.mutateChunk (msqrt : ℚ → ℚ) (metric : Metric) (c : Chunk) : Chunk :=
  if metric = .cosine then
    { c with embedding := normalizeVector msqrt metric c.embedding }
  else c

/-- `VectorStore.addChunk`: mutates the chunk (cosine normalization), pushes
it, and returns the assigned index. There is no dimension validation in the
source. -/
def VectorStore.addChunk (msqrt : ℚ → ℚ) (vs : VectorStore) (c : Chunk) :
    VectorStore × Nat :=
  ({ vs with chunks := vs.chunks ++ [VectorStore.mutateChunk msqrt vs.metric c] },
   vs.chunks.length)

/-- `VectorStore.addChunks`: `chunks.map(chunk => this.addChunk(chunk))`. -/
def VectorStore.addChunks (msqrt : ℚ → ℚ) (vs : VectorStore) :
    List Chunk → VectorStore × List Nat
  | [] => (vs, [])
  | c :: cs =>
    let r := VectorStore.addChunk msqrt vs c
    let rest := VectorStore.addChunks msqrt r.1 cs
    (rest.1, r.2 :: rest.2)

/-- `VectorStore.size`. -/
def VectorStore.size (vs : VectorStore) : Nat :=
  vs.chunks.length

/-- Descending-score comparison used by `results.sort((a, b) => b.score - a.score)`. -/
def scoreGe (x y : SearchResult) : Prop :=
  y.score ≤ x.score

instance : DecidableRel scoreGe := fun x y =>
  inferInstanceAs (Decidable (y.score ≤ x.score))

/-- `VectorStore.search`: empty store short-circuits to `[]`; otherwise score
every stored chunk (a dimension mismatch throws), sort by descending score
(stable) and truncate to `k`. -/
def VectorStore.search (msqrt : ℚ → ℚ) (vs : VectorStore) (q : List ℚ) (k : Nat) :
    Except String (List SearchResult) :=
  if vs.chunks = [] then .ok []
  else do
    let results ← vs.chunks.mapM fun c =>
      (calculateDistance msqrt vs.metric q c.embedding).map fun s =>
        SearchResult.mk c s
    pure ((results.insertionSort scoreGe).take k)

/-- Identifying fields of a bucket (src/core/types.ts `BucketConfig`). -/
structure BucketMeta where
  id : String
  name : String
  domain : String
  parentId : Option String
deriving DecidableEq

/-- A bucket (src/core/Bucket.ts): one vector store plus child buckets, in
insertion order of the `subBuckets` map. -/
inductive Bucket where
  | mk (meta : BucketMeta) (store : VectorStore) (children : List Bucket)

/-- The bucket's configuration data. -/
def Bucket.meta : Bucket → BucketMeta
  | .mk m _ _ => m

/-- The bucket's own vector store. -/
def Bucket.store : Bucket → VectorStore
  | .mk _ s _ => s

/-- The bucket's sub-buckets in insertion order. -/
def Bucket.children : Bucket → List Bucket
  | .mk _ _ c => c

/-- `Bucket.getDomain`. -/
def Bucket.domain (b : Bucket) : String :=
  b.meta.domain

/-- The value of the caller's chunk object after `Bucket.addChunk` returns:
the domain is overwritten with the bucket's domain, then `VectorStore.addChunk`
mutates the embedding (cosine normalization). By aliasing this is also the
chunk stored in the index. -/
def Bucket.callerChunk (msqrt : ℚ → ℚ) (b : Bucket) (c : Chunk) : Chunk :=
  VectorStore.mutateChunk msqrt b.store.metric
    { c with metadata := { c.metadata with domain := b.domain } }

/-- `Bucket.addChunk`: forces `chunk.metadata.domain` to the bucket's domain,
then delegates to the vector store. -/
def Bucket.addChunk (msqrt : ℚ → ℚ) : Bucket → Chunk → Bucket × Nat
  | .mk m s ch, c =>
    let r := VectorStore.addChunk msqrt s
      { c with metadata := { c.metadata with domain := m.domain } }
    (.mk m r.1 ch, r.2)

/-- `Bucket.addChunks`: forces the domain on every chunk, then delegates. -/
def Bucket.addChunks (msqrt : ℚ → ℚ) : Bucket → List Chunk → Bucket × List Nat
  | .mk m s ch, cs =>
    let r := VectorStore.addChunks msqrt s
      (cs.map fun c => { c with metadata := { c.metadata with domain := m.domain } })
    (.mk m r.1 ch, r.2)

mutual

/-- `Bucket.search`: local search, then, when `recursive` and children exist,
concatenate the children's recursive results, re-sort by descending score and
truncate to `k`. -/
def Bucket.search (msqrt : ℚ → ℚ) : Bucket → List ℚ → Nat → Bool →
    Except String (List SearchResult)
  | .mk _ s ch, q, k, recursive => do
    let localResults ← VectorStore.search msqrt s q k
    if recursive = true ∧ ch.isEmpty = false then do
      let subResults ← Bucket.searchChildren msqrt ch q k
      pure (((localResults ++ subResults).insertionSort scoreGe).take k)
    else
      pure localResults

/-- The `for (const subBucket of this.subBuckets.values())` loop of
`Bucket.search`, collecting each child's recursive results in order. -/
def Bucket.searchChildren (msqrt : ℚ → ℚ) : List Bucket → List ℚ → Nat →
    Except String (List SearchResult)
  | [], _, _ => .ok []
  | b :: bs, q, k => do
    let r ← Bucket.search msqrt b q k true
    let rest ← Bucket.searchChildren msqrt bs q k
    pure (r ++ rest)

end

mutual

/-- `Bucket.getChunkCount`: local size plus, when recursive, the recursive
counts of the children. -/
def Bucket.getChunkCount : Bucket → Bool → Nat
  | .mk _ s ch, recursive =>
    s.size + (if recursive then Bucket.getChunkCountChildren ch else 0)

/-- The children loop of `Bucket.getChunkCount`. -/
def Bucket.getChunkCountChildren : List Bucket → Nat
  | [] => 0
  | b :: bs => Bucket.getChunkCount b true + Bucket.getChunkCountChildren bs

end

/-- The local loop of `Bucket.getAllChunks`: it runs `size()` times and each
iteration calls `this.vectorStore.search([], 1)` — the empty sentinel query —
keeping the top result if any. Errors of `search` propagate. -/
def Bucket.collectLocal (msqrt : ℚ → ℚ) (s : VectorStore) :
    Nat → Except String (List Chunk)
  | 0 => .ok []
  | n + 1 => do
    let results ← VectorStore.search msqrt s [] 1
    let rest ← Bucket.collectLocal msqrt s n
    pure ((match results with
      | [] => ([] : List Chunk)
      | x :: _ => [x.chunk]) ++ rest)

mutual

/-- `Bucket.getAllChunks`: the local loop, then, when recursive, the
children's chunks appended in order. -/
def Bucket.getAllChunks (msqrt : ℚ → ℚ) : Bucket → Bool → Except String (List Chunk)
  | .mk _ s ch, recursive => do
    let base ← Bucket.collectLocal msqrt s s.size
    if recursive then do
      let subs ← Bucket.getAllChunksChildren msqrt ch
      pure (base ++ subs)
    else
      pure base

/-- The children loop of `Bucket.getAllChunks`. -/
def Bucket.getAllChunksChildren (msqrt : ℚ → ℚ) : List Bucket →
    Except String (List Chunk)
  | [] => .ok []
  | b :: bs => do
    let r ← Bucket.getAllChunks msqrt b true
    let rest ← Bucket.getAllChunksChildren msqrt bs
    pure (r ++ rest)

end

/-- Storage tiers (src/core/types.ts `StorageTier`), an enum with numeric
values `MEMORY = 0 < LOCAL = 1 < CLOUD = 2 < PLATFORM = 3 < EXTENDED = 4`. -/
inductive StorageTier where
  | memory
  | localTier
  | cloud
  | platform
  | extended
deriving DecidableEq

/-- The numeric value of a tier in the source enum. -/
def StorageTier.toNat : StorageTier → Nat
  | .memory => 0
  | .localTier => 1
  | .cloud => 2
  | .platform => 3
  | .extended => 4

/-- A provider quota snapshot (src/core/types.ts `StorageQuota`). -/
structure StorageQuota where
  used : ℚ
  total : ℚ
  available : ℚ
deriving DecidableEq

/-- A stored chunk's location (src/core/types.ts `ChunkLocation`). -/
structure ChunkLocation where
  providerId : String
  key : String
deriving DecidableEq

instance {ε α : Type} [DecidableEq ε] [DecidableEq α] : DecidableEq (Except ε α) :=
  fun x y =>
    match x, y with
    | .ok a, .ok b =>
      if h : a = b then .isTrue (by rw [h]) else .isFalse (by simp [h])
    | .error a, .error b =>
      if h : a = b then .isTrue (by rw [h]) else .isFalse (by simp [h])
    | .ok _, .error _ => .isFalse (by simp)
    | .error _, .ok _ => .isFalse (by simp)

/-- A storage provider handle as the core observes it: identity, tier, the
connectivity flag, and the pre-determined outcomes of the `await getQuota()`
and `await store(...)` calls (external collaborators; a rejected promise is an
`Except.error`). -/
structure Provider where
  id : String
  name : String
  tier : StorageTier
  connected : Bool
  getQuota : Except String StorageQuota
  store : Except String ChunkLocation
deriving DecidableEq

/-- `Map.set` on an association list: replace an existing key in place,
append a new one — JS `Map` insertion-order semantics. -/
def updAssoc {α : Type} (k : String) (v : α) : List (String × α) → List (String × α)
  | [] => [(k, v)]
  | (k', v') :: l => if k' = k then (k, v) :: l else (k', v') :: updAssoc k v l

/-- `Map.get` on an association list. -/
def lookupAssoc {α : Type} (k : String) : List (String × α) → Option α
  | [] => none
  | (k', v) :: l => if k' = k then some v else lookupAssoc k l

namespace MemoryManager

/-- The sort key of the provider comparator in `MemoryManager.storeChunk`:
providers matching the preferred tier first (key `tier < 8`), all others
after, by ascending tier value (key `8 + tier`). -/
def provKey (preferredTier : StorageTier) (p : Provider) : Nat :=
  (if p.tier = preferredTier then 0 else 8) + p.tier.toNat

/-- The total preorder induced by the comparator of `storeChunk`'s sort. -/
def provLe (preferredTier : StorageTier) (a b : Provider) : Prop :=
  provKey preferredTier a ≤ provKey preferredTier b

instance (preferredTier : StorageTier) : DecidableRel (provLe preferredTier) :=
  fun a b =>
    inferInstanceAs (Decidable (provKey preferredTier a ≤ provKey preferredTier b))

instance (preferredTier : StorageTier) : IsTotal Provider (provLe preferredTier) :=
  ⟨fun a b => Nat.le_total (provKey preferredTier a) (provKey preferredTier b)⟩

instance (preferredTier : StorageTier) : IsTrans Provider (provLe preferredTier) :=
  ⟨fun _ _ _ => Nat.le_trans⟩

/-- The sorted candidate list built by `storeChunk` (stable sort by the
comparator; V8's `Array.prototype.sort` is stable). -/
def sortProviders (preferredTier : StorageTier) (ps : List Provider) : List Provider :=
  ps.insertionSort (provLe preferredTier)

/-- The `for (const provider of providers)` loop of `storeChunk`: skip
disconnected providers; inside the `try`, fetch the quota and, when
`available >= serializedChunk.length`, perform the store and return its
location; any thrown error becomes the remembered `lastError` and iteration
continues; when the loop ends, throw `lastError` or the generic failure. -/
def tryProviders (size : ℚ) (lastError : Option String) :
    List Provider → Except String ChunkLocation
  | [] => .error (lastError.getD "Failed to store chunk in any provider")
  | p :: rest =>
    if p.connected = false then tryProviders size lastError rest
    else
      match p.getQuota with
      | .error e => tryProviders size (some e) rest
      | .ok quota =>
        if size ≤ quota.available then
          match p.store with
          | .error e => tryProviders size (some e) rest
          | .ok loc => .ok loc
        else
          tryProviders size lastError rest

/-- `MemoryManager.storeChunk`: sort the registered providers (preferred tier
first, then ascending tier), fail when none are registered, try each in order,
and on success record `chunkId → location` in the manager's map. `size` is the
length of the serialized chunk (serialization is a collaborator concern). The
post-call chunk→location map is returned alongside the outcome. -/
def storeChunk (ps : List Provider) (locations : List (String × ChunkLocation))
    (chunkId : String) (size : ℚ) (preferredTier : StorageTier) :
    Except String ChunkLocation × List (String × ChunkLocation) :=
  let sorted := sortProviders preferredTier ps
  if sorted.isEmpty then (.error "No storage providers available", locations)
  else
    match tryProviders size none sorted with
    | .ok loc => (.ok loc, updAssoc chunkId loc locations)
    | .error e => (.error e, locations)

/-- The errors raised along the candidate loop of `storeChunk`, in iteration
order: for each connected provider, the rejection of its `getQuota` call,
or — when the fetched quota covers the chunk — the rejection of its `store`
call. Skipped (disconnected) providers and providers that merely lack space
contribute no error, exactly as in the source's `catch` accounting. -/
def attemptErrors (size : ℚ) (ps : List Provider) : List String :=
  ps.filterMap fun p =>
    if p.connected then
      match p.getQuota with
      | .error e => some e
      | .ok q =>
        if size ≤ q.available then
          match p.store with
          | .error e => some e
          | .ok _ => none
        else none
    else none

/-- A provider at which the `storeChunk` loop would perform the store:
connected, quota fetch succeeds, and the available space covers the chunk. -/
def eligible (size : ℚ) (p : Provider) : Bool :=
  p.connected &&
    (match p.getQuota with
     | .ok q => decide (size ≤ q.available)
     | .error _ => false)

end MemoryManager

/-- Transaction status (src/utils/TransactionManager.ts `TransactionStatus`). -/
inductive TxStatus where
  | pending
  | committed
  | rolledBack
deriving DecidableEq

/-- A transaction operation: a description plus the pre-determined outcomes of
its `execute` and `rollback` steps (external closures). -/
structure TxOp (T : Type) where
  description : String
  exec : Except String T
  rollback : Except String Unit

/-- A transaction result (src/utils/TransactionManager.ts `TransactionResult`). -/
structure TxResult (T : Type) where
  status : TxStatus
  results : List T
  error : Option String

namespace TransactionManager

/-- The body of `executeTransaction`: run each `execute` in order,
accumulating results and the executed operations; on the first failure invoke
`rollback` on the executed operations in reverse execution order — each
invocation's outcome is caught and recorded, never interrupting the
sequence — and report `ROLLED_BACK` with the successful results and the
triggering error. The second component is the observable rollback trace: the
description and (caught) outcome of every compensate call, in invocation
order. -/
def go {T : Type} : List (TxOp T) → List T → List (TxOp T) →
    TxResult T × List (String × Except String Unit)
  | [], res, _ =>
    ({ status := .committed, results := res.reverse, error := none }, [])
  | op :: rest, res, executed =>
    match op.exec with
    | .ok v => go rest (v :: res) (op :: executed)
    | .error e =>
      ({ status := .rolledBack, results := res.reverse, error := some e },
       executed.map fun o => (o.description, o.rollback))

/-- `TransactionManager.executeTransaction`. -/
def executeTransaction {T : Type} (ops : List (TxOp T)) :
    TxResult T × List (String × Except String Unit) :=
  go ops [] []

end TransactionManager

/-- Alert categories (src/core/MemoryMonitor.ts `MemoryAlert.type`). -/
inductive AlertType where
  | bucketSize
  | providerCapacity
  | domainGrowth
  | system
deriving DecidableEq

/-- Alert severities (src/core/MemoryMonitor.ts `MemoryAlert.severity`). -/
inductive Severity where
  | info
  | warning
  | critical
deriving DecidableEq

/-- A monitoring alert; the wall-clock `id`/`timestamp` fields and the
structured `details` payload are environment-derived and not modelled. -/
structure MemoryAlert where
  type : AlertType
  severity : Severity
  message : String
  acknowledged : Bool
deriving DecidableEq

/-- The `MemoryMonitor`'s configuration and mutable state: thresholds, the
registered bucket and provider snapshots, the retained alerts, and the
bounded per-bucket / per-provider history rings. -/
structure MemoryMonitor where
  bucketSizeThresholdMB : ℚ
  providerCapacityThresholdPercent : ℚ
  domainGrowthThresholdPercent : ℚ
  buckets : List (String × Bucket)
  providers : List Provider
  alerts : List MemoryAlert
  bucketSizeHistory : List (String × List ℚ)
  providerUsageHistory : List (String × List StorageQuota)

namespace MemoryMonitor

/-- `MemoryMonitor.generateAlert`: push the alert (unacknowledged), evicting
the oldest when the 100-alert cap is exceeded. The alert callback is the
manager's `handleMemoryAlert`, which catches handler errors itself. -/
def generateAlert (st : MemoryMonitor) (t : AlertType) (sev : Severity)
    (msg : String) : MemoryMonitor :=
  let l := st.alerts ++ [{ type := t, severity := sev, message := msg,
                           acknowledged := false }]
  { st with alerts := if 100 < l.length then l.drop 1 else l }

/-- The estimated bucket size in MB used by the monitor:
`(chunkCount * 5) / 1024`, from the assumed 5 KB average chunk size. -/
def estimatedSizeMB (chunkCount : Nat) : ℚ :=
  (chunkCount * 5 : ℚ) / 1024

/-- One iteration of the `checkBucketSizes` loop: recompute the estimate,
push it on the bucket's bounded history ring (last 10 samples), and alert when
the estimate exceeds the threshold — `critical` beyond twice the threshold,
`warning` otherwise. -/
def checkBucketSizeOne (st : MemoryMonitor) (idb : String × Bucket) : MemoryMonitor :=
  let chunkCount := idb.2.getChunkCount true
  let est := estimatedSizeMB chunkCount
  let h := (lookupAssoc idb.1 st.bucketSizeHistory).getD [] ++ [est]
  let h' := if 10 < h.length then h.drop 1 else h
  let st' := { st with bucketSizeHistory := updAssoc idb.1 h' st.bucketSizeHistory }
  if st.bucketSizeThresholdMB < est then
    st'.generateAlert .bucketSize
      (if st.bucketSizeThresholdMB * 2 < est then .critical else .warning)
      ("Bucket \"" ++ idb.2.meta.name ++ "\" (" ++ idb.2.meta.domain ++
        ") exceeds size threshold")
  else st'

/-- `MemoryMonitor.checkBucketSizes`: the loop over the registered buckets.
Every step of this check is pure, so it cannot throw. -/
def checkBucketSizes (st : MemoryMonitor) : MemoryMonitor :=
  st.buckets.foldl checkBucketSizeOne st

/-- The loop of `checkProviderCapacities`: for each connected provider fetch
the quota — a rejection aborts the whole check, keeping the state mutated so
far — push it on the provider's history ring, and alert when the usage
percentage exceeds the threshold (`critical` above 95%). -/
def checkProvidersGo (st : MemoryMonitor) : List Provider →
    MemoryMonitor × Option String
  | [] => (st, none)
  | p :: ps =>
    if p.connected then
      match p.getQuota with
      | .error e => (st, some e)
      | .ok quota =>
        let usagePercent := quota.used / quota.total * 100
        let h := (lookupAssoc p.id st.providerUsageHistory).getD [] ++ [quota]
        let h' := if 10 < h.length then h.drop 1 else h
        let st' := { st with providerUsageHistory := updAssoc p.id h' st.providerUsageHistory }
        let st'' :=
          if st.providerCapacityThresholdPercent < usagePercent then
            st'.generateAlert .providerCapacity
              (if 95 < usagePercent then .critical else .warning)
              ("Storage provider \"" ++ p.name ++ "\" exceeds capacity threshold")
          else st'
        checkProvidersGo st'' ps
    else checkProvidersGo st ps

/-- `MemoryMonitor.checkProviderCapacities`; the `Option String` is the
uncaught exception, if any. -/
def checkProviderCapacities (st : MemoryMonitor) : MemoryMonitor × Option String :=
  checkProvidersGo st st.providers

/-- The domains of the registered buckets in first-occurrence order — the
iteration order of the `domainBuckets` map of `checkDomainGrowth`. -/
def domainsOf (st : MemoryMonitor) : List String :=
  (st.buckets.map fun idb => idb.2.domain).eraseDups

/-- One domain's step of the `checkDomainGrowth` loop: current size is the
sum of the domain's bucket estimates; previous size sums each bucket's
second-most-recent history sample; alert when the percent growth exceeds the
threshold — `warning` beyond twice the threshold, else `info`. -/
def checkDomainGrowthOne (st : MemoryMonitor) (domain : String) : MemoryMonitor :=
  let bucketsOf := st.buckets.filter fun idb => idb.2.domain = domain
  let currentSize := (bucketsOf.map fun idb =>
    estimatedSizeMB (idb.2.getChunkCount true)).sum
  let previousSize := (bucketsOf.map fun idb =>
    match lookupAssoc idb.1 st.bucketSizeHistory with
    | some h => if 2 ≤ h.length then (h.get? (h.length - 2)).getD 0 else 0
    | none => 0).sum
  let growthPercent :=
    if 0 < previousSize then (currentSize - previousSize) / previousSize * 100 else 0
  if st.domainGrowthThresholdPercent < growthPercent then
    st.generateAlert .domainGrowth
      (if st.domainGrowthThresholdPercent * 2 < growthPercent then .warning else .info)
      ("Domain \"" ++ domain ++ "\" is growing rapidly")
  else st

/-- `MemoryMonitor.checkDomainGrowth`: pure, so it cannot throw. -/
def checkDomainGrowth (st : MemoryMonitor) : MemoryMonitor :=
  (domainsOf st).foldl checkDomainGrowthOne st

/-- `MemoryMonitor.checkMemoryUsage`: run the three checks in order inside
one `try`; the only throwing steps are the provider calls of the capacity
check, and the `catch` converts the exception into a `system` alert instead
of propagating it. -/
def checkMemoryUsage (st : MemoryMonitor) : MemoryMonitor :=
  let st1 := checkBucketSizes st
  match checkProviderCapacities st1 with
  | (st2, some _) =>
    st2.generateAlert .system .warning "Error monitoring memory usage"
  | (st2, none) => checkDomainGrowth st2

end MemoryMonitor

/-- A minimal chunk value, concrete test data for the theorems below. -/
def sampleChunk : Chunk :=
  ⟨"c", "", [], ⟨"m", "dom", "", "", []⟩, []⟩

/-- A monitor state holding a single bucket of `n` copies of `sampleChunk`
under the default thresholds (bucket size 100 MB); concrete test data. -/
def monitorWithCount (n : Nat) : MemoryMonitor :=
  { bucketSizeThresholdMB := 100
    providerCapacityThresholdPercent := 80
    domainGrowthThresholdPercent := 50
    buckets := [("b1", .mk ⟨"b1", "big", "dom", none⟩
      (.mk 1536 .cosine (List.replicate n sampleChunk)) [])]
    providers := []
    alerts := []
    bucketSizeHistory := []
    providerUsageHistory := [] }

/-! ## General lemmas about the embedding -/

theorem mutateChunk_metadata (msqrt : ℚ → ℚ) (m : Metric) (c : Chunk) :
    (VectorStore.mutateChunk msqrt m c).metadata = c.metadata := by
  unfold VectorStore.mutateChunk
  split <;> rfl

theorem mutateChunk_id (msqrt : ℚ → ℚ) (m : Metric) (c : Chunk) :
    (VectorStore.mutateChunk msqrt m c).id = c.id := by
  unfold VectorStore.mutateChunk
  split <;> rfl

theorem mutateChunk_content (msqrt : ℚ → ℚ) (m : Metric) (c : Chunk) :
    (VectorStore.mutateChunk msqrt m c).content = c.content := by
  unfold VectorStore.mutateChunk
  split <;> rfl

theorem addChunk_metric (msqrt : ℚ → ℚ) (vs : VectorStore) (c : Chunk) :
    (VectorStore.addChunk msqrt vs c).1.metric = vs.metric := rfl

theorem addChunks_chunks (msqrt : ℚ → ℚ) (vs : VectorStore) (cs : List Chunk) :
    (VectorStore.addChunks msqrt vs cs).1.chunks =
      vs.chunks ++ cs.map (VectorStore.mutateChunk msqrt vs.metric) := by
  induction cs generalizing vs with
  | nil => simp [VectorStore.addChunks]
  | cons c cs ih =>
    simp only [VectorStore.addChunks, ih, addChunk_metric, List.map_cons]
    simp [VectorStore.addChunk, List.append_assoc]

theorem monitorWithCount_chunkCount (n : Nat) :
    Bucket.getChunkCount (.mk ⟨"b1", "big", "dom", none⟩
      (.mk 1536 .cosine (List.replicate n sampleChunk)) []) true = n := by
  rw [Bucket.getChunkCount]
  simp only [VectorStore.size, List.length_replicate, Bucket.getChunkCountChildren,
    if_true, Nat.add_zero]

theorem generateAlert_getLast (st : MemoryMonitor) (t : AlertType) (sev : Severity)
    (msg : String) :
    (MemoryMonitor.generateAlert st t sev msg).alerts.getLast? =
      some ⟨t, sev, msg, false⟩ := by
  unfold MemoryMonitor.generateAlert
  dsimp only
  split
  · next h =>
    have h1 : 1 ≤ st.alerts.length := by
      simp only [List.length_append, List.length_cons, List.length_nil] at h
      omega
    rw [List.drop_append_of_le_length h1]
    exact List.getLast?_concat _
  · exact List.getLast?_concat _

theorem tx_go_rollback {T : Type} {pre : List (TxOp T)} {vs : List T} (f : TxOp T)
    (rest : List (TxOp T)) {e : String}
    (hpre : List.Forall₂ (fun op v => op.exec = .ok v) pre vs)
    (hf : f.exec = .error e) :
    ∀ (acc : List T) (executed : List (TxOp T)),
      TransactionManager.go (pre ++ f :: rest) acc executed =
        ({ status := .rolledBack, results := acc.reverse ++ vs, error := some e },
         (pre.reverse ++ executed).map fun o => (o.description, o.rollback)) := by
  induction hpre with
  | nil =>
    intro acc executed
    simp [TransactionManager.go, hf]
  | cons h _ ih =>
    intro acc executed
    simp only [List.cons_append, TransactionManager.go, h, List.append_eq]
    rw [ih]
    simp [List.append_assoc]

theorem getLast_getD_cons_append (acc : Option String) (e : String)
    (es : List String) (d : String) :
    (acc.toList ++ e :: es).getLast?.getD d = (e :: es).getLast?.getD d := by
  cases acc with
  | none => rfl
  | some a =>
    show (([a] : List String) ++ e :: es).getLast?.getD d = _
    rw [List.getLast?_append]
    cases hl : (e :: es).getLast? with
    | none =>
      rw [List.getLast?_eq_none_iff] at hl
      exact absurd hl (List.cons_ne_nil _ _)
    | some y => rfl

theorem tryProviders_no_success (size : ℚ) (l : List Provider)
    (h : ∀ p ∈ l, p.connected = true → ∀ q, p.getQuota = .ok q →
      size ≤ q.available → ∃ e, p.store = .error e) :
    ∀ acc : Option String,
      MemoryManager.tryProviders size acc l =
        .error ((acc.toList ++ MemoryManager.attemptErrors size l).getLast?.getD
          "Failed to store chunk in any provider") := by
  induction l with
  | nil =>
    intro acc
    rw [MemoryManager.tryProviders, MemoryManager.attemptErrors]
    cases acc <;> simp
  | cons p rest ih =>
    have hrest := fun p' hp' => h p' (List.mem_cons_of_mem p hp')
    intro acc
    rw [MemoryManager.tryProviders]
    cases hpc : p.connected with
    | false =>
      rw [if_pos rfl, ih hrest]
      have herrs : MemoryManager.attemptErrors size (p :: rest) =
          MemoryManager.attemptErrors size rest := by
        rw [MemoryManager.attemptErrors, MemoryManager.attemptErrors,
          List.filterMap_cons, hpc]
        simp
      rw [herrs]
    | true =>
      rw [if_neg (by simp)]
      cases hq : p.getQuota with
      | error e =>
        have herr : MemoryManager.attemptErrors size (p :: rest) =
            e :: MemoryManager.attemptErrors size rest := by
          rw [MemoryManager.attemptErrors, MemoryManager.attemptErrors,
            List.filterMap_cons, hpc, hq]
          simp
        simp only [hq]
        rw [ih hrest, herr, getLast_getD_cons_append]
        rfl
      | ok q =>
        simp only [hq]
        by_cases hav : size ≤ q.available
        · obtain ⟨e, hse⟩ := h p (List.mem_cons_self p rest) hpc q hq hav
          have herr : MemoryManager.attemptErrors size (p :: rest) =
              e :: MemoryManager.attemptErrors size rest := by
            rw [MemoryManager.attemptErrors, MemoryManager.attemptErrors,
              List.filterMap_cons, hpc, hq]
            simp [hav, hse]
          rw [if_pos hav]
          simp only [hse]
          rw [ih hrest, herr, getLast_getD_cons_append]
          rfl
        · have herr : MemoryManager.attemptErrors size (p :: rest) =
              MemoryManager.attemptErrors size rest := by
            rw [MemoryManager.attemptErrors, MemoryManager.attemptErrors,
              List.filterMap_cons, hpc, hq]
            simp [hav]
          rw [if_neg hav, ih hrest, herr]

theorem tryProviders_cons_of_not_eligible (size : ℚ) (p : Provider)
    (rest : List Provider) (acc : Option String) (q0 : StorageQuota)
    (hq0 : p.getQuota = .ok q0) (he : MemoryManager.eligible size p = false) :
    MemoryManager.tryProviders size acc (p :: rest) =
      MemoryManager.tryProviders size acc rest := by
  rw [MemoryManager.tryProviders]
  cases hc : p.connected with
  | false => rw [if_pos rfl]
  | true =>
    have hav : ¬ size ≤ q0.available := by
      rw [MemoryManager.eligible] at he
      simp only [hc, hq0, Bool.true_and, decide_eq_false_iff_not] at he
      exact he
    rw [if_neg (by simp), hq0]
    dsimp only
    rw [if_neg hav]

theorem tryProviders_cons_of_eligible (size : ℚ) (p : Provider)
    (rest : List Provider) (acc : Option String) (q0 : StorageQuota)
    (loc0 : ChunkLocation) (hq0 : p.getQuota = .ok q0)
    (hloc0 : p.store = .ok loc0) (he : MemoryManager.eligible size p = true) :
    MemoryManager.tryProviders size acc (p :: rest) = .ok loc0 := by
  have hc : p.connected = true := by
    rw [MemoryManager.eligible] at he
    exact (Bool.and_eq_true_iff.mp he).1
  have hav : size ≤ q0.available := by
    rw [MemoryManager.eligible] at he
    have := (Bool.and_eq_true_iff.mp he).2
    simp only [hq0, decide_eq_true_eq] at this
    exact this
  rw [MemoryManager.tryProviders, if_neg (by simp [hc]), hq0]
  dsimp only
  rw [if_pos hav, hloc0]

theorem tryProviders_find (size : ℚ) (l : List Provider)
    (hq : ∀ p ∈ l, ∃ q, p.getQuota = .ok q)
    (hs : ∀ p ∈ l, ∃ loc, p.store = .ok loc) :
    ∀ acc : Option String,
      (∀ p, l.find? (MemoryManager.eligible size) = some p →
         ∃ loc, p.store = .ok loc ∧
           MemoryManager.tryProviders size acc l = .ok loc) ∧
      (l.find? (MemoryManager.eligible size) = none →
         ∃ e, MemoryManager.tryProviders size acc l = .error e) := by
  induction l with
  | nil =>
    intro acc
    constructor
    · intro p hp
      simp at hp
    · intro _
      exact ⟨_, rfl⟩
  | cons p rest ih =>
    intro acc
    have hq' := fun x hx => hq x (List.mem_cons_of_mem p hx)
    have hs' := fun x hx => hs x (List.mem_cons_of_mem p hx)
    obtain ⟨q0, hq0⟩ := hq p (List.mem_cons_self p rest)
    obtain ⟨loc0, hloc0⟩ := hs p (List.mem_cons_self p rest)
    cases he : MemoryManager.eligible size p with
    | true =>
      have hfind : (p :: rest).find? (MemoryManager.eligible size) = some p :=
        List.find?_cons_of_pos rest he
      constructor
      · intro p' hp'
        rw [hfind] at hp'
        obtain rfl : p = p' := by injection hp'
        exact ⟨loc0, hloc0,
          tryProviders_cons_of_eligible size p rest acc q0 loc0 hq0 hloc0 he⟩
      · intro hn
        rw [hfind] at hn
        exact absurd hn (by simp)
    | false =>
      have hfind : (p :: rest).find? (MemoryManager.eligible size) =
          rest.find? (MemoryManager.eligible size) :=
        List.find?_cons_of_neg rest (by simp [he])
      have hskip := tryProviders_cons_of_not_eligible size p rest acc q0 hq0 he
      constructor
      · intro p' hp'
        rw [hfind] at hp'
        obtain ⟨loc, h1, h2⟩ := (ih hq' hs' acc).1 p' hp'
        exact ⟨loc, h1, by rw [hskip, h2]⟩
      · intro hn
        rw [hfind] at hn
        obtain ⟨e, h2⟩ := (ih hq' hs' acc).2 hn
        exact ⟨e, by rw [hskip, h2]⟩

theorem searchChildren_eq_mapM (msqrt : ℚ → ℚ) (bs : List Bucket) (q : List ℚ)
    (k : Nat) :
    Bucket.searchChildren msqrt bs q k =
      (bs.mapM fun c => Bucket.search msqrt c q k true).map List.flatten := by
  induction bs with
  | nil => rfl
  | cons b bs ih =>
    rw [Bucket.searchChildren, List.mapM_cons]
    cases hb : Bucket.search msqrt b q k true with
    | error e => rfl
    | ok r =>
      rw [ih]
      cases hm : bs.mapM fun c => Bucket.search msqrt c q k true with
      | error e => rfl
      | ok ls => rfl

theorem normSq_nonneg (v : List ℚ) : 0 ≤ normSq v := by
  rw [normSq]
  apply List.sum_nonneg
  intro x hx
  simp only [List.mem_map] at hx
  obtain ⟨y, -, rfl⟩ := hx
  exact mul_self_nonneg y

theorem normSq_eq_zero_iff (v : List ℚ) : normSq v = 0 ↔ ∀ x ∈ v, x = 0 := by
  induction v with
  | nil => simp [normSq]
  | cons a l ih =>
    rw [normSq, List.map_cons, List.sum_cons]
    rw [show (l.map fun x => x * x).sum = normSq l from rfl]
    rw [add_eq_zero_iff_of_nonneg (mul_self_nonneg a) (normSq_nonneg l),
      mul_self_eq_zero, ih]
    simp [List.forall_mem_cons]

theorem map_eq_self_mem (f : ℚ → ℚ) (v : List ℚ) (h : v.map f = v) :
    ∀ x ∈ v, f x = x := by
  induction v with
  | nil => simp
  | cons a l ih =>
    rw [List.map_cons, List.cons.injEq] at h
    intro x hx
    rcases List.mem_cons.mp hx with rfl | hx'
    · exact h.1
    · exact ih h.2 x hx'

/-! ## Claim theorems -/

/-- C1: the spec claims `VectorStore.addChunk` rejects a chunk whose embedding
length differs from the configured dimension and leaves `size()` unchanged,
and the repository's own test (tests/core/VectorStore.test.ts, "should throw
an error if chunk embedding dimension does not match store dimension")
expects a throw — but the source performs no dimension validation: on a
dimension-5 store, a 6-dimensional chunk is accepted at index 0 and the size
becomes 1. -/
theorem vectorStore_addChunk_accepts_dimension_mismatch :
    (Chunk.mk "c1" "" [1, 0, 0, 0, 0, 1] ⟨"m1", "test", "", "test", []⟩
        []).embedding.length = 6 ∧
    (VectorStore.mk 5 .cosine []).dimension = 5 ∧
    (VectorStore.addChunk (fun x => x) (.mk 5 .cosine [])
        (.mk "c1" "" [1, 0, 0, 0, 0, 1] ⟨"m1", "test", "", "test", []⟩ [])).2 = 0 ∧
    (VectorStore.addChunk (fun x => x) (.mk 5 .cosine [])
        (.mk "c1" "" [1, 0, 0, 0, 0, 1] ⟨"m1", "test", "", "test", []⟩ [])).1.size = 1 := by
  refine ⟨rfl, rfl, rfl, rfl⟩

/-- C2: the spec claims `Bucket.getAllChunks(recursive)` returns the
concatenation of the locally stored chunks with the children's chunks, and
the method's own doc comment promises "a flat array of all chunks" — but the
local loop probes `this.vectorStore.search([], 1)` with the empty sentinel
query, whose distance computation throws on any stored chunk of positive
dimension: on a bucket holding exactly one chunk with embedding `[1, 0]`,
`getAllChunks` throws "Vectors must have the same dimension" (while
`getChunkCount` correctly reports 1). -/
theorem bucket_getAllChunks_throws :
    Bucket.getAllChunks (fun x => x)
        (.mk ⟨"b1", "bucket", "dom", none⟩
          (.mk 2 .dot [⟨"c1", "t", [1, 0], ⟨"m1", "dom", "ts", "user", []⟩, []⟩]) [])
        true = .error "Vectors must have the same dimension" ∧
    Bucket.getChunkCount
        (.mk ⟨"b1", "bucket", "dom", none⟩
          (.mk 2 .dot [⟨"c1", "t", [1, 0], ⟨"m1", "dom", "ts", "user", []⟩, []⟩]) [])
        true = 1 := by
  refine ⟨rfl, rfl⟩

/-- C8: every chunk added through `Bucket.addChunk` is stored with
`metadata.domain` equal to the bucket's domain, whatever domain it carried,
and keeps its identity and content; the batched `Bucket.addChunks` forces the
same domain on every appended chunk. -/
theorem bucket_addChunk_forces_domain (msqrt : ℚ → ℚ) (b : Bucket) (c : Chunk)
    (cs : List Chunk) :
    (b.addChunk msqrt c).1.store.chunks =
      b.store.chunks ++ [b.callerChunk msqrt c] ∧
    (b.callerChunk msqrt c).metadata.domain = b.domain ∧
    (b.callerChunk msqrt c).id = c.id ∧
    (b.callerChunk msqrt c).content = c.content ∧
    ∀ c' ∈ (b.addChunks msqrt cs).1.store.chunks.drop b.store.chunks.length,
      c'.metadata.domain = b.domain := by
  obtain ⟨m, s, ch⟩ := b
  refine ⟨rfl, ?_, ?_, ?_, ?_⟩
  · rw [Bucket.callerChunk, mutateChunk_metadata]
  · rw [Bucket.callerChunk, mutateChunk_id]
  · rw [Bucket.callerChunk, mutateChunk_content]
  · intro c' hc'
    simp only [Bucket.addChunks, Bucket.store, addChunks_chunks,
      List.drop_left, List.mem_map] at hc'
    obtain ⟨c0, hc0, rfl⟩ := hc'
    obtain ⟨a, -, rfl⟩ := hc0
    rw [mutateChunk_metadata]
    rfl

/-- C3 (counterexample): the claim says the bucket-size check with
`bucketSizeThresholdMB = 100` and a 5 KB average chunk size emits a warning
alert for a bucket of 20,001 chunks. The code computes the estimate as
`chunkCount * 5 / 1024` MB, so 20,001 chunks estimate to `100005/1024 ≈ 97.66`
MB — not above the threshold — and the check emits no alert at all. -/
theorem checkBucketSizes_no_alert_at_20001 :
    (MemoryMonitor.checkBucketSizes (monitorWithCount 20001)).alerts = [] := by
  rw [MemoryMonitor.checkBucketSizes, monitorWithCount]
  simp only [List.foldl_cons, List.foldl_nil]
  rw [MemoryMonitor.checkBucketSizeOne]
  dsimp only
  rw [monitorWithCount_chunkCount 20001]
  rw [if_neg (by rw [MemoryMonitor.estimatedSizeMB]; norm_num)]

/-- C3 (amended): the general severity rule holds — the bucket-size check
emits nothing when the estimate is at most the threshold, a `warning` alert
when the estimate is strictly between the threshold and twice the threshold,
and a `critical` alert beyond twice the threshold — but with
`bucketSizeThresholdMB = 100` and the 5 KB average (estimate
`count * 5 / 1024` MB) the boundary counts are 20,481 chunks for `warning`
and 40,961 chunks for `critical`, not 20,001 and 40,001. -/
theorem checkBucketSizes_severity_rule (st : MemoryMonitor) (i : String) (b : Bucket)
    (hb : st.buckets = [(i, b)]) :
    (MemoryMonitor.estimatedSizeMB (b.getChunkCount true) ≤ st.bucketSizeThresholdMB →
       (MemoryMonitor.checkBucketSizes st).alerts = st.alerts) ∧
    (st.bucketSizeThresholdMB < MemoryMonitor.estimatedSizeMB (b.getChunkCount true) →
     MemoryMonitor.estimatedSizeMB (b.getChunkCount true) ≤ st.bucketSizeThresholdMB * 2 →
       (MemoryMonitor.checkBucketSizes st).alerts.getLast? =
         some ⟨.bucketSize, .warning,
           "Bucket \"" ++ b.meta.name ++ "\" (" ++ b.meta.domain ++
             ") exceeds size threshold", false⟩) ∧
    (0 ≤ st.bucketSizeThresholdMB →
     st.bucketSizeThresholdMB * 2 < MemoryMonitor.estimatedSizeMB (b.getChunkCount true) →
       (MemoryMonitor.checkBucketSizes st).alerts.getLast? =
         some ⟨.bucketSize, .critical,
           "Bucket \"" ++ b.meta.name ++ "\" (" ++ b.meta.domain ++
             ") exceeds size threshold", false⟩) ∧
    ((100 : ℚ) < MemoryMonitor.estimatedSizeMB 20481 ∧
      MemoryMonitor.estimatedSizeMB 20481 ≤ 100 * 2) ∧
    (100 * 2 : ℚ) < MemoryMonitor.estimatedSizeMB 40961 ∧
    MemoryMonitor.estimatedSizeMB 20001 ≤ 100 := by
  have hcb : MemoryMonitor.checkBucketSizes st = MemoryMonitor.checkBucketSizeOne st (i, b) := by
    rw [MemoryMonitor.checkBucketSizes, hb]
    simp only [List.foldl_cons, List.foldl_nil]
  refine ⟨?_, ?_, ?_, ?_, ?_, ?_⟩
  · intro h
    rw [hcb, MemoryMonitor.checkBucketSizeOne]
    dsimp only
    rw [if_neg (not_lt.mpr h)]
  · intro h h2
    rw [hcb, MemoryMonitor.checkBucketSizeOne]
    dsimp only
    rw [if_pos h, if_neg (not_lt.mpr h2)]
    exact generateAlert_getLast _ _ _ _
  · intro h0 h
    rw [hcb, MemoryMonitor.checkBucketSizeOne]
    dsimp only
    rw [if_pos (lt_of_le_of_lt (by linarith) h), if_pos h]
    exact generateAlert_getLast _ _ _ _
  · constructor
    · rw [MemoryMonitor.estimatedSizeMB]; norm_num
    · rw [MemoryMonitor.estimatedSizeMB]; norm_num
  · rw [MemoryMonitor.estimatedSizeMB]; norm_num
  · rw [MemoryMonitor.estimatedSizeMB]; norm_num

/-- Witness for C3: a monitor with threshold 100 MB over a single bucket of
20,481 chunks emits a `warning` bucket-size alert. -/
theorem checkBucketSizes_severity_rule_witness :
    (MemoryMonitor.checkBucketSizes (monitorWithCount 20481)).alerts.getLast? =
      some ⟨.bucketSize, .warning,
        "Bucket \"" ++ "big" ++ "\" (" ++ "dom" ++ ") exceeds size threshold",
        false⟩ :=
  (checkBucketSizes_severity_rule (monitorWithCount 20481) "b1"
    (.mk ⟨"b1", "big", "dom", none⟩
      (.mk 1536 .cosine (List.replicate 20481 sampleChunk)) []) rfl).2.1
    (by rw [monitorWithCount_chunkCount, MemoryMonitor.estimatedSizeMB]
        norm_num [monitorWithCount])
    (by rw [monitorWithCount_chunkCount, MemoryMonitor.estimatedSizeMB]
        norm_num [monitorWithCount])

/-- C4: whenever no provider attempt can succeed — each connected provider's
quota fetch rejects, or its available quota falls short of the serialized
size, or its store call itself rejects — `storeChunk` fails, carrying the
last underlying provider error raised along the sorted candidate loop when
one exists (the generic capacity message otherwise, and the no-providers
error when none are registered), and the manager's chunk→location map is
returned unchanged: no location is recorded for the chunk. -/
theorem storeChunk_no_success (ps : List Provider)
    (locs : List (String × ChunkLocation)) (cid : String) (size : ℚ)
    (pt : StorageTier)
    (h : ∀ p ∈ ps, p.connected = true → ∀ q, p.getQuota = .ok q →
      size ≤ q.available → ∃ e, p.store = .error e) :
    MemoryManager.storeChunk ps locs cid size pt =
      (.error (if ps.isEmpty = true then "No storage providers available"
        else (MemoryManager.attemptErrors size
            (MemoryManager.sortProviders pt ps)).getLast?.getD
          "Failed to store chunk in any provider"),
       locs) := by
  rw [MemoryManager.storeChunk]
  by_cases hps : ps = []
  · subst hps
    rw [MemoryManager.sortProviders]
    simp [List.insertionSort]
  · have hperm : (MemoryManager.sortProviders pt ps).Perm ps :=
      List.perm_insertionSort _ ps
    have hsp : (MemoryManager.sortProviders pt ps).isEmpty = false := by
      rw [List.isEmpty_eq_false]
      intro hnil
      exact hps (List.Perm.eq_nil (hnil ▸ hperm.symm))
    rw [hsp]
    have h' : ∀ p ∈ MemoryManager.sortProviders pt ps, p.connected = true →
        ∀ q, p.getQuota = .ok q → size ≤ q.available → ∃ e, p.store = .error e :=
      fun p hp => h p (hperm.subset hp)
    rw [if_neg (by simp), tryProviders_no_success size _ h' none]
    simp only [Option.toList, List.nil_append]
    rw [if_neg (by simp [List.isEmpty_eq_false, hps])]

/-- Witness for C4: three connected providers — the first's quota call
rejects with "quota boom", the second has ample quota but its store call
rejects with "store boom", the third has only 3 bytes available for a
10-byte chunk; `storeChunk` fails carrying the store rejection as the last
underlying error and records no location. -/
theorem storeChunk_no_success_witness :
    MemoryManager.storeChunk
        [⟨"pA", "A", .localTier, true, .error "quota boom", .ok ⟨"pA", "k"⟩⟩,
         ⟨"pB", "B", .cloud, true, .ok ⟨0, 100, 100⟩, .error "store boom"⟩,
         ⟨"pC", "C", .extended, true, .ok ⟨97, 100, 3⟩, .ok ⟨"pC", "k"⟩⟩]
        [] "c" 10 .localTier =
      (.error "store boom", []) := by
  rw [storeChunk_no_success]
  · rfl
  · intro p hp hpc q hq hav
    rcases List.mem_cons.mp hp with rfl | hp'
    · cases hq
    · rcases List.mem_cons.mp hp' with rfl | hp''
      · exact ⟨"store boom", rfl⟩
      · rcases List.mem_cons.mp hp'' with rfl | hp'''
        · cases hq
          exact absurd hav (by norm_num)
        · cases hp'''

/-- C6: `storeChunk` iterates the providers sorted with those whose tier
equals the preferred tier first and the rest by ascending tier value (the
sorted list is a permutation of the registered providers, sorted under the
comparator's preorder), skips every provider that is not connected, and —
when the external quota and store calls themselves succeed — stores at the
first connected provider whose available quota covers the serialized size,
recording `chunkId → location` and returning that location immediately; when
no such provider exists it fails and records nothing. -/
theorem storeChunk_tier_preference (ps : List Provider)
    (locs : List (String × ChunkLocation)) (cid : String) (size : ℚ)
    (pt : StorageTier)
    (hq : ∀ p ∈ ps, ∃ q, p.getQuota = .ok q)
    (hs : ∀ p ∈ ps, ∃ loc, p.store = .ok loc) :
    (MemoryManager.sortProviders pt ps).Perm ps ∧
    List.Sorted (MemoryManager.provLe pt) (MemoryManager.sortProviders pt ps) ∧
    (∀ p, (MemoryManager.sortProviders pt ps).find? (MemoryManager.eligible size) =
        some p →
       ∃ loc, p.store = .ok loc ∧
         MemoryManager.storeChunk ps locs cid size pt =
           (.ok loc, updAssoc cid loc locs)) ∧
    ((MemoryManager.sortProviders pt ps).find? (MemoryManager.eligible size) =
        none →
       ∃ e, MemoryManager.storeChunk ps locs cid size pt = (.error e, locs)) := by
  have hperm : (MemoryManager.sortProviders pt ps).Perm ps :=
    List.perm_insertionSort _ ps
  have hsorted : List.Sorted (MemoryManager.provLe pt)
      (MemoryManager.sortProviders pt ps) :=
    List.sorted_insertionSort _ ps
  have hq' : ∀ p ∈ MemoryManager.sortProviders pt ps, ∃ q, p.getQuota = .ok q :=
    fun p hp => hq p (hperm.subset hp)
  have hs' : ∀ p ∈ MemoryManager.sortProviders pt ps, ∃ loc, p.store = .ok loc :=
    fun p hp => hs p (hperm.subset hp)
  refine ⟨hperm, hsorted, ?_, ?_⟩
  · intro p hp
    have hne : (MemoryManager.sortProviders pt ps).isEmpty = false := by
      cases hsort : MemoryManager.sortProviders pt ps with
      | nil => rw [hsort] at hp; simp at hp
      | cons _ _ => rfl
    obtain ⟨loc, hloc, htry⟩ := (tryProviders_find size _ hq' hs' none).1 p hp
    refine ⟨loc, hloc, ?_⟩
    rw [MemoryManager.storeChunk, hne, if_neg (by simp), htry]
  · intro hn
    obtain ⟨e, htry⟩ := (tryProviders_find size _ hq' hs' none).2 hn
    by_cases hps : ps = []
    · subst hps
      refine ⟨"No storage providers available", ?_⟩
      rw [MemoryManager.storeChunk, MemoryManager.sortProviders]
      simp [List.insertionSort]
    · have hne : (MemoryManager.sortProviders pt ps).isEmpty = false := by
        rw [List.isEmpty_eq_false]
        intro hnil
        exact hps (List.Perm.eq_nil (hnil ▸ hperm.symm))
      refine ⟨e, ?_⟩
      rw [MemoryManager.storeChunk, hne, if_neg (by simp), htry]

/-- Witness for C6: with a preferred tier of LOCAL, a connected LOCAL
provider with ample quota is chosen over a connected MEMORY provider that
sorts earlier by tier value alone, and its location is recorded. -/
theorem storeChunk_tier_preference_witness :
    ∃ loc, (Provider.mk "pL" "L" .localTier true (.ok ⟨0, 100, 100⟩)
        (.ok ⟨"pL", "kL"⟩)).store = .ok loc ∧
      MemoryManager.storeChunk
          [⟨"pM", "M", .memory, true, .ok ⟨0, 100, 100⟩, .ok ⟨"pM", "kM"⟩⟩,
           ⟨"pL", "L", .localTier, true, .ok ⟨0, 100, 100⟩, .ok ⟨"pL", "kL"⟩⟩]
          [] "c" 10 .localTier =
        (.ok loc, updAssoc "c" loc []) :=
  (storeChunk_tier_preference
      [⟨"pM", "M", .memory, true, .ok ⟨0, 100, 100⟩, .ok ⟨"pM", "kM"⟩⟩,
       ⟨"pL", "L", .localTier, true, .ok ⟨0, 100, 100⟩, .ok ⟨"pL", "kL"⟩⟩]
      [] "c" 10 .localTier
      (by intro p hp
          rcases List.mem_cons.mp hp with rfl | hp'
          · exact ⟨_, rfl⟩
          · rcases List.mem_cons.mp hp' with rfl | hp''
            · exact ⟨_, rfl⟩
            · cases hp'')
      (by intro p hp
          rcases List.mem_cons.mp hp with rfl | hp'
          · exact ⟨_, rfl⟩
          · rcases List.mem_cons.mp hp' with rfl | hp''
            · exact ⟨_, rfl⟩
            · cases hp'')).2.2.1
    (Provider.mk "pL" "L" .localTier true (.ok ⟨0, 100, 100⟩) (.ok ⟨"pL", "kL"⟩))
    rfl

/-- C7: over a bucket with children, recursive search equals the local
vector-store top-k search concatenated with each child's own recursive
search results, re-sorted by descending score (stably) and truncated to `k`;
errors propagate identically on both sides. -/
theorem bucket_search_recursive_decomposition (msqrt : ℚ → ℚ) (m : BucketMeta)
    (s : VectorStore) (ch : List Bucket) (q : List ℚ) (k : Nat)
    (h : ch.isEmpty = false) :
    Bucket.search msqrt (.mk m s ch) q k true =
      (do
        let localResults ← VectorStore.search msqrt s q k
        let subLists ← ch.mapM fun c => Bucket.search msqrt c q k true
        pure (((localResults ++ subLists.flatten).insertionSort scoreGe).take k)) := by
  rw [Bucket.search]
  cases hl : VectorStore.search msqrt s q k with
  | error e => rfl
  | ok localResults =>
    show (if true = true ∧ ch.isEmpty = false then _ else _) = _
    rw [if_pos ⟨rfl, h⟩, searchChildren_eq_mapM]
    cases hm : ch.mapM fun c => Bucket.search msqrt c q k true with
    | error e => rfl
    | ok ls => rfl

/-- Witness for C7: a one-child tree over dimension-1 dot-metric stores;
both sides of the decomposition agree on the concrete query. -/
theorem bucket_search_recursive_decomposition_witness :
    Bucket.search (fun x => x)
        (.mk ⟨"p", "parent", "d", none⟩
          (.mk 1 .dot [⟨"c1", "", [2], ⟨"m1", "d", "", "", []⟩, []⟩])
          [.mk ⟨"ch", "child", "d", some "p"⟩
            (.mk 1 .dot [⟨"c2", "", [3], ⟨"m2", "d", "", "", []⟩, []⟩]) []])
        [1] 2 true =
      (do
        let localResults ← VectorStore.search (fun x => x)
          (.mk 1 .dot [⟨"c1", "", [2], ⟨"m1", "d", "", "", []⟩, []⟩]) [1] 2
        let subLists ←
          [Bucket.mk ⟨"ch", "child", "d", some "p"⟩
            (.mk 1 .dot [⟨"c2", "", [3], ⟨"m2", "d", "", "", []⟩, []⟩]) []].mapM
            fun c => Bucket.search (fun x => x) c [1] 2 true
        pure (((localResults ++ subLists.flatten).insertionSort scoreGe).take 2)) :=
  bucket_search_recursive_decomposition (fun x => x) ⟨"p", "parent", "d", none⟩
    (.mk 1 .dot [⟨"c1", "", [2], ⟨"m1", "d", "", "", []⟩, []⟩])
    [.mk ⟨"ch", "child", "d", some "p"⟩
      (.mk 1 .dot [⟨"c2", "", [3], ⟨"m2", "d", "", "", []⟩, []⟩]) []]
    [1] 2 rfl

/-- C9: `checkMemoryUsage` is a failure sink. The bucket-size and
domain-growth checks are pure in this core, so the only throwing steps are
the provider calls of the capacity check; whenever one of them throws, the
exception is caught and converted into an appended alert of type `system`
(severity `warning`), and when none throws the cycle completes normally with
the domain-growth check — in both cases `checkMemoryUsage` returns a state
rather than propagating an error. -/
theorem checkMemoryUsage_failure_sink (st : MemoryMonitor) :
    ((MemoryMonitor.checkProviderCapacities
        (MemoryMonitor.checkBucketSizes st)).2.isSome = true →
       (MemoryMonitor.checkMemoryUsage st).alerts.getLast? =
         some ⟨.system, .warning, "Error monitoring memory usage", false⟩) ∧
    ((MemoryMonitor.checkProviderCapacities
        (MemoryMonitor.checkBucketSizes st)).2 = none →
       MemoryMonitor.checkMemoryUsage st =
         MemoryMonitor.checkDomainGrowth
           (MemoryMonitor.checkProviderCapacities
             (MemoryMonitor.checkBucketSizes st)).1) := by
  constructor
  · intro hsome
    rw [MemoryMonitor.checkMemoryUsage]
    rcases hcp : MemoryMonitor.checkProviderCapacities
        (MemoryMonitor.checkBucketSizes st) with ⟨st2, o⟩
    rw [hcp] at hsome
    obtain ⟨e, he⟩ := Option.isSome_iff_exists.mp hsome
    simp only at he
    subst he
    exact generateAlert_getLast _ _ _ _
  · intro hnone
    rw [MemoryMonitor.checkMemoryUsage]
    rcases hcp : MemoryMonitor.checkProviderCapacities
        (MemoryMonitor.checkBucketSizes st) with ⟨st2, o⟩
    rw [hcp] at hnone
    simp only at hnone
    subst hnone
    rfl

/-- Witness for C9: a monitor whose single connected provider's quota call
rejects; the cycle converts the exception into a `system` alert. -/
theorem checkMemoryUsage_failure_sink_witness :
    (MemoryMonitor.checkMemoryUsage
      { bucketSizeThresholdMB := 100
        providerCapacityThresholdPercent := 80
        domainGrowthThresholdPercent := 50
        buckets := []
        providers := [⟨"p1", "P", .localTier, true, .error "quota down",
          .ok ⟨"p1", "k"⟩⟩]
        alerts := []
        bucketSizeHistory := []
        providerUsageHistory := [] }).alerts.getLast? =
      some ⟨.system, .warning, "Error monitoring memory usage", false⟩ :=
  (checkMemoryUsage_failure_sink
    { bucketSizeThresholdMB := 100
      providerCapacityThresholdPercent := 80
      domainGrowthThresholdPercent := 50
      buckets := []
      providers := [⟨"p1", "P", .localTier, true, .error "quota down",
        .ok ⟨"p1", "k"⟩⟩]
      alerts := []
      bucketSizeHistory := []
      providerUsageHistory := [] }).1 rfl

/-- C10: `Bucket.addChunk` mutates the caller's chunk object in place:
`metadata.domain` is overwritten with the bucket's domain and, under the
cosine metric, the embedding is replaced by its L2-normalized copy — by
aliasing, the stored chunk and the caller's object are one value
(`callerChunk`), and whenever the chunk's domain differs from the bucket's
or its embedding is neither unit-norm nor zero, that value differs from the
chunk that was passed in. The square-root hypotheses state the two
properties of `Math.sqrt` the claim depends on. -/
theorem bucket_addChunk_mutates_caller (msqrt : ℚ → ℚ)
    (h0 : ∀ r : ℚ, 0 ≤ r → (msqrt r = 0 ↔ r = 0))
    (h1 : ∀ r : ℚ, 0 ≤ r → (msqrt r = 1 ↔ r = 1))
    (b : Bucket) (c : Chunk) (hm : b.store.metric = .cosine)
    (hc : c.metadata.domain ≠ b.domain ∨
      (normSq c.embedding ≠ 1 ∧ normSq c.embedding ≠ 0)) :
    (b.addChunk msqrt c).1.store.chunks =
      b.store.chunks ++ [b.callerChunk msqrt c] ∧
    (b.callerChunk msqrt c).embedding =
      normalizeVector msqrt .cosine c.embedding ∧
    b.callerChunk msqrt c ≠ c := by
  obtain ⟨m, s, ch⟩ := b
  simp only [Bucket.store] at hm
  have hemb0 : (Bucket.callerChunk msqrt (.mk m s ch) c).embedding =
      normalizeVector msqrt .cosine c.embedding := by
    simp [Bucket.callerChunk, Bucket.store, hm, VectorStore.mutateChunk]
  refine ⟨rfl, hemb0, ?_⟩
  intro heq
  rcases hc with hd | ⟨hn1, hn0⟩
  · have hdom : (Bucket.callerChunk msqrt (.mk m s ch) c).metadata.domain =
        (Bucket.mk m s ch).domain := by
      rw [Bucket.callerChunk, mutateChunk_metadata]
    rw [heq] at hdom
    exact hd hdom
  · have hemb : normalizeVector msqrt .cosine c.embedding = c.embedding := by
      rw [← hemb0, heq]
    rw [normalizeVector, if_neg (by simp)] at hemb
    by_cases hz : msqrt (normSq c.embedding) = 0
    · exact hn0 ((h0 _ (normSq_nonneg c.embedding)).mp hz)
    · rw [if_neg hz] at hemb
      have hne : ¬ ∀ x ∈ c.embedding, x = 0 := fun hall =>
        hn0 ((normSq_eq_zero_iff c.embedding).mpr hall)
      push_neg at hne
      obtain ⟨x, hxv, hx0⟩ := hne
      have hfix := map_eq_self_mem _ c.embedding hemb x hxv
      rw [div_eq_iff hz] at hfix
      have hs1 : msqrt (normSq c.embedding) = 1 :=
        mul_left_cancel₀ hx0 (by rw [← hfix, mul_one])
      exact hn1 ((h1 _ (normSq_nonneg c.embedding)).mp hs1)

/-- Witness for C10: a cosine bucket receives a chunk with embedding
`[3, 4]` (squared norm 25, neither unit nor zero); instantiating `msqrt`
with the identity — which satisfies both square-root hypotheses — the
caller's chunk after the call differs from the one passed in. -/
theorem bucket_addChunk_mutates_caller_witness :
    Bucket.callerChunk (fun r => r)
        (.mk ⟨"b", "n", "dom", none⟩ (.mk 2 .cosine []) [])
        ⟨"c1", "", [3, 4], ⟨"m1", "dom", "", "", []⟩, []⟩ ≠
      ⟨"c1", "", [3, 4], ⟨"m1", "dom", "", "", []⟩, []⟩ :=
  (bucket_addChunk_mutates_caller (fun r => r)
    (fun _ _ => Iff.rfl) (fun _ _ => Iff.rfl)
    (.mk ⟨"b", "n", "dom", none⟩ (.mk 2 .cosine []) [])
    ⟨"c1", "", [3, 4], ⟨"m1", "dom", "", "", []⟩, []⟩
    rfl
    (Or.inr (by constructor <;> (rw [normSq]; norm_num)))).2.2

/-- C5: when the execute step of operation `i` is the first to fail,
`executeTransaction` invokes the compensate steps of operations
`i-1, …, 1` in exactly that reverse order — never forward, never skipping —
with every compensate outcome caught (the result does not depend on the
`rollback` outcomes at all, since no hypothesis constrains them), and returns
status `ROLLED_BACK`, the `i-1` successful results, and the original
triggering error. -/
theorem executeTransaction_rollback {T : Type} (pre : List (TxOp T)) (vs : List T)
    (f : TxOp T) (rest : List (TxOp T)) (e : String)
    (hpre : List.Forall₂ (fun op v => op.exec = .ok v) pre vs)
    (hf : f.exec = .error e) :
    TransactionManager.executeTransaction (pre ++ f :: rest) =
      ({ status := .rolledBack, results := vs, error := some e },
       pre.reverse.map fun o => (o.description, o.rollback)) := by
  rw [TransactionManager.executeTransaction, tx_go_rollback f rest hpre hf]
  simp

/-- Witness for C5: of four operations, the third fails to execute; the first
two roll back in the order 2, 1 — the second's compensate failure is caught
and recorded without disturbing the sequence or the outcome. -/
theorem executeTransaction_rollback_witness :
    TransactionManager.executeTransaction
        [⟨"op1", .ok 1, .ok ()⟩, ⟨"op2", .ok 2, .error "rollback boom"⟩,
         ⟨"op3", .error "exec fail", .ok ()⟩, ⟨"op4", .ok 4, .ok ()⟩] =
      ({ status := .rolledBack, results := [1, 2], error := some "exec fail" },
       [("op2", .error "rollback boom"), ("op1", .ok ())]) :=
  executeTransaction_rollback
    [⟨"op1", .ok 1, .ok ()⟩, ⟨"op2", .ok 2, .error "rollback boom"⟩] [1, 2]
    ⟨"op3", .error "exec fail", .ok ()⟩ [⟨"op4", .ok 4, .ok ()⟩] "exec fail"
    (.cons rfl (.cons rfl .nil)) rfl

end InfiniteContext
